import Mathlib

/-
Verification of the clangd-mcp-server core components against their
natural-language specification.

Shallow embedding of three components:
  - the two-phase hierarchy fetcher (src/utils/hierarchy-helper.ts),
  - the push-driven diagnostics cache (src/tools/get-diagnostics.ts),
  - the open-document tracker (modelled from the spec; its source file
    src/file-tracker.ts is not part of the provided sources, only its tests).

The JavaScript runtime is single-threaded and cooperative: a synchronous run
of code between two await points is atomic.  Stateful operations are embedded
as explicit step functions on a state record; asynchronous resolution of a
waiting caller is represented by a waiter identifier that a later step
resolves with a value.
-/

namespace ClangdMCP

/- ## Two-phase hierarchy fetcher (src/utils/hierarchy-helper.ts) -/

/-- Result shape of fetchTwoPhaseHierarchy: the anchor item plus the two
relationship collections (interface HierarchyResult in the source). -/
structure HierarchyResult (TItem TIncoming TOutgoing : Type) where
  item : TItem
  incoming : List TIncoming
  outgoing : List TOutgoing
deriving DecidableEq

/-- The resolved value of the prepare request: null, a single item, or an
array of items (the source tests all three shapes with
`!items || (Array.isArray(items) && items.length === 0)`). -/
inductive PrepareResponse (TItem : Type) where
  | nullResp
  | single (item : TItem)
  | items (l : List TItem)
deriving DecidableEq

/-- Outcome of one relation request (`lspClient.request(incomingMethod, ...)`):
either it resolves — possibly with a null payload — or it rejects with a
remote error or transport failure, which the source catches and maps to null. -/
inductive RelationResponse (T : Type) where
  | ok (v : Option (List T))
  | failed
deriving DecidableEq

/-- The collection the source derives from one relation request:
a rejection is caught and replaced by null (`.catch(error => null)`), and a
null payload is replaced by the empty array (`incoming || []`). -/
def relationValue {T : Type} : RelationResponse T → List T
  | .ok (some l) => l
  | .ok none => []
  | .failed => []

/-- The anchor selection of the source: null or an empty array yields no
anchor; an array yields its first element (`items[0]`); a single item is the
anchor itself. -/
def prepareAnchor {TItem : Type} : PrepareResponse TItem → Option TItem
  | .nullResp => none
  | .items [] => none
  | .items (i :: _) => some i
  | .single i => some i

/-- Embedding of fetchTwoPhaseHierarchy.  The prepare request has already
resolved to `prep`; the two relation requests are represented by the
functions `incomingReq` and `outgoingReq`, applied to the anchor item that
the fetch passes as the `item` parameter of each request. -/
def fetchTwoPhaseHierarchy {TItem TIncoming TOutgoing : Type}
    (prep : PrepareResponse TItem)
    (incomingReq : TItem → RelationResponse TIncoming)
    (outgoingReq : TItem → RelationResponse TOutgoing) :
    Option (HierarchyResult TItem TIncoming TOutgoing) :=
  match prep with
  | .nullResp => none
  | .items [] => none
  | .items (i :: _) =>
      some ⟨i, relationValue (incomingReq i), relationValue (outgoingReq i)⟩
  | .single i =>
      some ⟨i, relationValue (incomingReq i), relationValue (outgoingReq i)⟩

/- ## Diagnostics cache (src/tools/get-diagnostics.ts) -/

/-- A zero-indexed line/character position (src/utils/lsp-types.ts). -/
structure Position where
  line : Nat
  character : Nat
deriving DecidableEq

/-- A source range with start and end positions. -/
structure Range where
  start : Position
  stop : Position
deriving DecidableEq

/-- One diagnostic record as the cache stores it: severity (optional in LSP),
message and range.  The cache never inspects these fields; they ride along
as the pushed payload. -/
structure Diagnostic where
  range : Range
  severity : Option Nat
  message : String
deriving DecidableEq

/-- JS Map.get: the value stored under the key, if any. -/
def getEntry {α : Type} : List (String × α) → String → Option α
  | [], _ => none
  | e :: t, k => if e.1 == k then some e.2 else getEntry t k

/-- JS Map.delete: remove the entry stored under the key. -/
def delEntry {α : Type} : List (String × α) → String → List (String × α)
  | [], _ => []
  | e :: t, k => if e.1 == k then delEntry t k else e :: delEntry t k

/-- JS Map.set: store a value under a key, replacing any previous entry. -/
def setEntry {α : Type} (m : List (String × α)) (k : String) (v : α) :
    List (String × α) :=
  (k, v) :: delEntry m k

/-- State of the DiagnosticsCache class: the per-URI diagnostics cache and
the per-URI list of pending waiters.  A waiter is the resolve callback of a
suspended getDiagnostics caller, represented by a numeric identifier. -/
structure DiagnosticsCache where
  cache : List (String × List Diagnostic)
  pendingWaits : List (String × List Nat)
deriving DecidableEq

/-- Result of running the publishDiagnostics notification handler installed
by the DiagnosticsCache constructor: the new state, plus the list of
(waiter, value) resolutions it performed. -/
structure PublishStep where
  state : DiagnosticsCache
  resolutions : List (Nat × List Diagnostic)
deriving DecidableEq

/-- The constructor notification handler for textDocument/publishDiagnostics:
updates the cache for the URI, then resolves every pending waiter for that
URI with the pushed diagnostics and deletes the waiter list. -/
def handlePublish (s : DiagnosticsCache) (uri : String)
    (diags : List Diagnostic) : PublishStep :=
  let cache2 := setEntry s.cache uri diags
  match getEntry s.pendingWaits uri with
  | some waiters =>
      ⟨⟨cache2, delEntry s.pendingWaits uri⟩, waiters.map (fun w => (w, diags))⟩
  | none => ⟨⟨cache2, s.pendingWaits⟩, []⟩

/-- How one getDiagnostics call completed its synchronous part: either it
returned a cached value immediately, or it registered a waiter and
suspended. -/
inductive GetOutcome where
  | immediate (diags : List Diagnostic)
  | registered (waiter : Nat)
deriving DecidableEq

/-- Result of the synchronous part of one getDiagnostics call: the new cache
state, the outcome, and the LSP requests the call issued (the source issues
none — diagnostics are server-push only, so this list is empty in every
branch of the translation). -/
structure GetStep where
  state : DiagnosticsCache
  outcome : GetOutcome
  requestsSent : List String
deriving DecidableEq

/-- The synchronous part of DiagnosticsCache.getDiagnostics(uri, forceRefresh)
up to its first suspension point, with `w` the fresh waiter identifier for
the resolve callback: if forceRefresh, first delete the cached entry; if an
entry now exists, return it immediately; otherwise (waitForDiagnostics, whose
re-check of the cache sees the same unchanged map) append a waiter to the
pending list for the URI and suspend.  No lspClient.request is issued on any
path. -/
def getDiagnosticsStep (s : DiagnosticsCache) (uri : String)
    (forceRefresh : Bool) (w : Nat) : GetStep :=
  let cache1 := if forceRefresh then delEntry s.cache uri else s.cache
  match getEntry cache1 uri with
  | some d => ⟨⟨cache1, s.pendingWaits⟩, .immediate d, []⟩
  | none =>
      let waiters := (getEntry s.pendingWaits uri).getD []
      ⟨⟨cache1, setEntry s.pendingWaits uri (waiters ++ [w])⟩, .registered w, []⟩

/-- The bounded wait getDiagnostics passes to waitForDiagnostics, in
milliseconds (`this.waitForDiagnostics(uri, 5000)` in the source). -/
def diagnosticsWaitTimeoutMs : Nat := 5000

/-- Outcome of the race in waitForDiagnostics between the waiter promise and
the withTimeout deadline: either the promise resolved with pushed
diagnostics before the deadline, or the deadline elapsed first. -/
inductive RaceResult where
  | resolved (diags : List Diagnostic)
  | timedOut
deriving DecidableEq

/-- What the await of withTimeout inside the try/catch of waitForDiagnostics
produces for the caller: a resolved promise returns its value; a
TimeoutError is caught and the empty array is returned instead of
rethrowing.  The waiter promise itself only ever resolves, so no other
error can reach the caller. -/
def waitForDiagnosticsResult : RaceResult → Except String (List Diagnostic)
  | .resolved d => .ok d
  | .timedOut => .ok []

/-- The catch branch of waitForDiagnostics on timeout: the pending waiter
list for the URI is deleted; the cache itself is untouched. -/
def onTimeoutCleanup (s : DiagnosticsCache) (uri : String) : DiagnosticsCache :=
  ⟨s.cache, delEntry s.pendingWaits uri⟩

/-- Trace of several getDiagnostics callers executed in sequence: the final
state, the outcome of each call in order, and all LSP requests issued. -/
structure WaitTrace where
  state : DiagnosticsCache
  outcomes : List GetOutcome
  requestsSent : List String
deriving DecidableEq

/-- Several callers invoking getDiagnostics(uri, false) one after another,
with the given fresh waiter identifiers, before any push arrives. -/
def registerManyTrace : DiagnosticsCache → String → List Nat → WaitTrace
  | s, _, [] => ⟨s, [], []⟩
  | s, uri, w :: rest =>
      let st := getDiagnosticsStep s uri false w
      let tr := registerManyTrace st.state uri rest
      ⟨tr.state, st.outcome :: tr.outcomes, st.requestsSent ++ tr.requestsSent⟩

/- ## Open-document tracker (modelled from the spec)

The source file src/file-tracker.ts is not among the provided sources; only
its unit tests are.  The definitions below are therefore modelled from the
specification, section 4.4, and checked for consistency with the unit tests
in tests/unit/file-tracker.test.ts. -/

/-- Modelled from the spec: one tracked Open Document of the missing
src/file-tracker.ts — its file path and the URI derived from it.  Version,
language id and content are fixed at open time and carried only by the open
notification, so they are not part of the tracking state the claims are
about. -/
structure OpenDoc where
  path : String
  uri : String
deriving DecidableEq

/-- Modelled from the spec: the protocol traffic and callback invocations an
open-document tracker operation emits, in order: a didOpen notification, a
didClose notification, or an invocation of the registered close/eviction
callback with the closed URI. -/
inductive TrackerEvent where
  | didOpen (uri : String)
  | didClose (uri : String)
  | closedCallback (uri : String)
deriving DecidableEq

/-- Modelled from the spec: the state of the missing FileTracker class —
the tracked documents in recency order (head is least recently used, last is
most recently used) and the fixed capacity (100 in the source). -/
structure FileTracker where
  docs : List OpenDoc
  maxOpenFiles : Nat
deriving DecidableEq

/-- Modelled from the spec: the URI derived from a filesystem path. -/
def pathToUri (p : String) : String :=
  "file://" ++ p

/-- Lookup of a tracked document by path. -/
def findDoc : List OpenDoc → String → Option OpenDoc
  | [], _ => none
  | d :: t, p => if d.path == p then some d else findDoc t p

/-- Removal of the tracked document with the given path. -/
def removeDoc : List OpenDoc → String → List OpenDoc
  | [], _ => []
  | d :: t, p => if d.path == p then removeDoc t p else d :: removeDoc t p

/-- Membership test on paths of the event of a didOpen notification. -/
def isDidOpen : TrackerEvent → Bool
  | .didOpen _ => true
  | _ => false

/-- Modelled from the spec: ensureOpen of the missing src/file-tracker.ts.
Fails (none) with a not-found error if the file does not exist on disk.  If
the path is already tracked, moves it to most-recently-used and returns the
cached URI with no protocol traffic.  If untracked and at capacity, first
evicts the least-recently-used document — sending its close notification and
invoking the eviction callback with its URI — then opens the new document
with a didOpen notification and tracks it as most-recently-used. -/
def ensureFileOpen (t : FileTracker) (path : String) (existsOnDisk : Bool) :
    Option (FileTracker × String × List TrackerEvent) :=
  if existsOnDisk then
    match findDoc t.docs path with
    | some d =>
        some (⟨removeDoc t.docs path ++ [d], t.maxOpenFiles⟩, d.uri, [])
    | none =>
        let uri := pathToUri path
        if t.maxOpenFiles ≤ t.docs.length then
          match t.docs with
          | [] => some (⟨[⟨path, uri⟩], t.maxOpenFiles⟩, uri,
              [TrackerEvent.didOpen uri])
          | lru :: rest =>
              some (⟨rest ++ [⟨path, uri⟩], t.maxOpenFiles⟩, uri,
                [TrackerEvent.didClose lru.uri, TrackerEvent.closedCallback lru.uri,
                 TrackerEvent.didOpen uri])
        else
          some (⟨t.docs ++ [⟨path, uri⟩], t.maxOpenFiles⟩, uri,
            [TrackerEvent.didOpen uri])
  else none

/-- Modelled from the spec: closeFile of the missing src/file-tracker.ts.
A no-op if the path is not tracked; otherwise sends the close notification,
removes the entry and invokes the close callback exactly once. -/
def closeFile (t : FileTracker) (path : String) :
    FileTracker × List TrackerEvent :=
  match findDoc t.docs path with
  | none => (t, [])
  | some d =>
      (⟨removeDoc t.docs path, t.maxOpenFiles⟩,
       [TrackerEvent.didClose d.uri, TrackerEvent.closedCallback d.uri])

/-- A sequence of ensureOpen calls on existing files, folded over the
tracker state. -/
def runEnsures : FileTracker → List String → FileTracker
  | t, [] => t
  | t, p :: rest =>
      match ensureFileOpen t p true with
      | some r => runEnsures r.1 rest
      | none => runEnsures t rest

/- ## Helper lemmas -/

/-- A freshly stored entry is found under its key. -/
theorem getEntry_setEntry_self {α : Type} (m : List (String × α)) (k : String)
    (v : α) : getEntry (setEntry m k v) k = some v := by
  simp [setEntry, getEntry]

/-- After deletion, no entry is found under the deleted key. -/
theorem getEntry_delEntry_self {α : Type} (m : List (String × α)) (k : String) :
    getEntry (delEntry m k) k = none := by
  induction m with
  | nil => rfl
  | cons e t ih =>
      by_cases h : e.1 == k
      · simpa [delEntry, h] using ih
      · simpa [delEntry, getEntry, h] using ih

/-- When the prepare phase yields an anchor, the fetch resolves with that
anchor and the per-side collections derived from the two relation requests
issued at that anchor. -/
theorem fetchTwoPhaseHierarchy_eq_of_anchor {TItem TIncoming TOutgoing : Type}
    (prep : PrepareResponse TItem) (i : TItem)
    (incomingReq : TItem → RelationResponse TIncoming)
    (outgoingReq : TItem → RelationResponse TOutgoing)
    (h : prepareAnchor prep = some i) :
    fetchTwoPhaseHierarchy prep incomingReq outgoingReq =
      some ⟨i, relationValue (incomingReq i), relationValue (outgoingReq i)⟩ := by
  cases prep with
  | nullResp => simp [prepareAnchor] at h
  | single j =>
      simp only [prepareAnchor, Option.some.injEq] at h
      subst h; rfl
  | items l =>
      cases l with
      | nil => simp [prepareAnchor] at h
      | cons j rest =>
          simp only [prepareAnchor, Option.some.injEq] at h
          subst h; rfl

/- ## Claims about the two-phase hierarchy fetcher -/

/-- C6: if the prepare request resolves to null or to an empty collection,
fetchTwoPhaseHierarchy resolves to the not-found value (none) — a successful
resolution, not an error — and this holds for every pair of relation request
functions, so neither relation request can influence (or be needed for) the
result. -/
theorem fetchTwoPhaseHierarchy_empty_prepare_yields_not_found
    {TItem TIncoming TOutgoing : Type} (prep : PrepareResponse TItem)
    (h : prep = PrepareResponse.nullResp ∨ prep = PrepareResponse.items []) :
    ∀ (incomingReq : TItem → RelationResponse TIncoming)
      (outgoingReq : TItem → RelationResponse TOutgoing),
      fetchTwoPhaseHierarchy prep incomingReq outgoingReq = none := by
  intro incomingReq outgoingReq
  rcases h with h | h <;> subst h <;> rfl

/-- Witness for C6 at concrete inputs: a null prepare response with relation
requests that would succeed with non-empty payloads still yields none. -/
theorem fetchTwoPhaseHierarchy_empty_prepare_yields_not_found_witness :
    fetchTwoPhaseHierarchy (PrepareResponse.nullResp : PrepareResponse Nat)
      (fun _ => RelationResponse.ok (some [5]))
      (fun _ => RelationResponse.ok (some [7])) = none :=
  fetchTwoPhaseHierarchy_empty_prepare_yields_not_found
    PrepareResponse.nullResp (Or.inl rfl)
    (fun _ => RelationResponse.ok (some [5]))
    (fun _ => RelationResponse.ok (some [7]))

/-- C7: when the prepare request resolves to a non-empty collection, the
anchor item — used as the argument of both relation requests and returned in
the result — is the collection's first element, regardless of how many
candidates follow it. -/
theorem fetchTwoPhaseHierarchy_anchor_is_first_item
    {TItem TIncoming TOutgoing : Type} (i : TItem) (rest : List TItem)
    (incomingReq : TItem → RelationResponse TIncoming)
    (outgoingReq : TItem → RelationResponse TOutgoing) :
    fetchTwoPhaseHierarchy (PrepareResponse.items (i :: rest))
        incomingReq outgoingReq =
      some ⟨i, relationValue (incomingReq i), relationValue (outgoingReq i)⟩ :=
  rfl

/-- C2: when the prepare phase yields an anchor and exactly one of the two
relation requests fails (remote error or transport failure), the fetch still
resolves successfully: the failed side degrades to the empty collection and
the other side carries that request's real successful result. -/
theorem fetchTwoPhaseHierarchy_one_side_failure_degrades
    {TItem TIncoming TOutgoing : Type} (prep : PrepareResponse TItem)
    (i : TItem)
    (incomingReq : TItem → RelationResponse TIncoming)
    (outgoingReq : TItem → RelationResponse TOutgoing)
    (h : prepareAnchor prep = some i) :
    (∀ lo, incomingReq i = RelationResponse.failed →
        outgoingReq i = RelationResponse.ok (some lo) →
        fetchTwoPhaseHierarchy prep incomingReq outgoingReq = some ⟨i, [], lo⟩) ∧
    (∀ li, incomingReq i = RelationResponse.ok (some li) →
        outgoingReq i = RelationResponse.failed →
        fetchTwoPhaseHierarchy prep incomingReq outgoingReq =
          some ⟨i, li, []⟩) := by
  refine ⟨fun lo hinc hout => ?_, fun li hinc hout => ?_⟩ <;>
    rw [fetchTwoPhaseHierarchy_eq_of_anchor prep i incomingReq outgoingReq h,
      hinc, hout] <;> rfl

/-- Witness for C2 at concrete inputs: with a single-item prepare response,
a failing incoming request and an outgoing request succeeding with [4, 8],
the fetch resolves with incoming empty and outgoing [4, 8]. -/
theorem fetchTwoPhaseHierarchy_one_side_failure_degrades_witness :
    fetchTwoPhaseHierarchy (PrepareResponse.single (3 : Nat))
        (fun _ => (RelationResponse.failed : RelationResponse Nat))
        (fun _ => RelationResponse.ok (some [4, 8])) =
      some ⟨3, ([] : List Nat), [4, 8]⟩ :=
  (fetchTwoPhaseHierarchy_one_side_failure_degrades (PrepareResponse.single 3) 3
      (fun _ => RelationResponse.failed)
      (fun _ => RelationResponse.ok (some [4, 8])) rfl).1 [4, 8] rfl rfl

/-- C10: when the prepare phase yields an anchor and a relation request
succeeds but resolves with a null payload, that side of the result is the
empty collection — the incoming and outgoing fields are (by type) always
collections, never null. -/
theorem fetchTwoPhaseHierarchy_null_relation_result_yields_empty
    {TItem TIncoming TOutgoing : Type} (prep : PrepareResponse TItem)
    (i : TItem)
    (incomingReq : TItem → RelationResponse TIncoming)
    (outgoingReq : TItem → RelationResponse TOutgoing)
    (h : prepareAnchor prep = some i) :
    (incomingReq i = RelationResponse.ok none →
        fetchTwoPhaseHierarchy prep incomingReq outgoingReq =
          some ⟨i, [], relationValue (outgoingReq i)⟩) ∧
    (outgoingReq i = RelationResponse.ok none →
        fetchTwoPhaseHierarchy prep incomingReq outgoingReq =
          some ⟨i, relationValue (incomingReq i), []⟩) := by
  refine ⟨fun hinc => ?_, fun hout => ?_⟩
  · rw [fetchTwoPhaseHierarchy_eq_of_anchor prep i incomingReq outgoingReq h, hinc]
    rfl
  · rw [fetchTwoPhaseHierarchy_eq_of_anchor prep i incomingReq outgoingReq h, hout]
    rfl

/-- Witness for C10 at concrete inputs: with a single-item prepare response
and both relation requests resolving to null, the fetch resolves with both
sides empty. -/
theorem fetchTwoPhaseHierarchy_null_relation_result_yields_empty_witness :
    fetchTwoPhaseHierarchy (PrepareResponse.single (2 : Nat))
        (fun _ => (RelationResponse.ok none : RelationResponse Nat))
        (fun _ => (RelationResponse.ok none : RelationResponse Nat)) =
      some ⟨2, ([] : List Nat), ([] : List Nat)⟩ :=
  (fetchTwoPhaseHierarchy_null_relation_result_yields_empty
      (PrepareResponse.single 2) 2
      (fun _ => RelationResponse.ok none)
      (fun _ => RelationResponse.ok none) rfl).1 rfl

/- ## Claims about the diagnostics cache -/

/-- A getDiagnostics call that finds no cached entry registers a waiter:
when the cache has no entry for the URI, the call appends its waiter to the
pending list, suspends, issues no request, and leaves the cache map
unchanged. -/
theorem getDiagnosticsStep_registers (s : DiagnosticsCache) (u : String)
    (w : Nat) (hc : getEntry s.cache u = none) :
    getDiagnosticsStep s u false w =
      ⟨⟨s.cache, setEntry s.pendingWaits u
          (((getEntry s.pendingWaits u).getD []) ++ [w])⟩,
        GetOutcome.registered w, []⟩ := by
  simp [getDiagnosticsStep, hc]

/-- Registering several waiters in sequence accumulates them in order on the
pending list for the URI, leaves the cache map unchanged, reports every
caller as suspended, and issues no request. -/
theorem registerManyTrace_accumulates (u : String) (ws : List Nat) :
    ∀ (s : DiagnosticsCache) (acc : List Nat),
      getEntry s.cache u = none →
      getEntry s.pendingWaits u = some acc →
      (registerManyTrace s u ws).state.cache = s.cache ∧
      getEntry (registerManyTrace s u ws).state.pendingWaits u =
        some (acc ++ ws) ∧
      (registerManyTrace s u ws).outcomes = ws.map GetOutcome.registered ∧
      (registerManyTrace s u ws).requestsSent = [] := by
  induction ws with
  | nil => intro s acc hc hp; simpa [registerManyTrace] using hp
  | cons w rest ih =>
      intro s acc hc hp
      have hstep := getDiagnosticsStep_registers s u w hc
      have hacc : ((getEntry s.pendingWaits u).getD []) ++ [w] = acc ++ [w] := by
        rw [hp]; rfl
      rw [hacc] at hstep
      have hnext := ih ⟨s.cache, setEntry s.pendingWaits u (acc ++ [w])⟩
        (acc ++ [w]) hc (getEntry_setEntry_self _ _ _)
      simp only [registerManyTrace, hstep] at *
      refine ⟨hnext.1, ?_, ?_, ?_⟩
      · rw [hnext.2.1]; simp
      · simp [hnext.2.2.1]
      · simp [hnext.2.2.2]

/-- C1: multiple callers awaiting the same URI before any push arrives are
all resolved by the single next publishDiagnostics push for that URI — each
in registration order with the pushed value — and all are removed from the
waiter list; no caller issued a separate fetch request. -/
theorem diagnosticsCache_single_push_resolves_all_waiters
    (s : DiagnosticsCache) (u : String) (w : Nat) (rest : List Nat)
    (d : List Diagnostic)
    (hc : getEntry s.cache u = none) (hp : getEntry s.pendingWaits u = none) :
    (registerManyTrace s u (w :: rest)).outcomes =
      (w :: rest).map GetOutcome.registered ∧
    (registerManyTrace s u (w :: rest)).requestsSent = [] ∧
    (handlePublish (registerManyTrace s u (w :: rest)).state u d).resolutions =
      (w :: rest).map (fun x => (x, d)) ∧
    getEntry
      (handlePublish (registerManyTrace s u (w :: rest)).state u d).state.pendingWaits
      u = none := by
  have hstep := getDiagnosticsStep_registers s u w hc
  have hacc : ((getEntry s.pendingWaits u).getD []) ++ [w] = [w] := by
    rw [hp]; rfl
  rw [hacc] at hstep
  have hnext := registerManyTrace_accumulates u rest
    ⟨s.cache, setEntry s.pendingWaits u [w]⟩ [w] hc (getEntry_setEntry_self _ _ _)
  have htr : registerManyTrace s u (w :: rest) =
      ⟨(registerManyTrace ⟨s.cache, setEntry s.pendingWaits u [w]⟩ u rest).state,
        GetOutcome.registered w ::
          (registerManyTrace ⟨s.cache, setEntry s.pendingWaits u [w]⟩ u rest).outcomes,
        [] ++ (registerManyTrace ⟨s.cache, setEntry s.pendingWaits u [w]⟩ u rest).requestsSent⟩ := by
    simp only [registerManyTrace, hstep]
  rw [htr]
  have hpend := hnext.2.1
  refine ⟨by simp [hnext.2.2.1], by simp [hnext.2.2.2], ?_, ?_⟩
  · simp only [handlePublish, hpend]
    rfl
  · simp only [handlePublish, hpend]
    exact getEntry_delEntry_self _ _

/-- Witness for C1: from an empty cache, callers 0 and 1 await URI
file:///a.cpp; the single next push with one diagnostic resolves both with
that payload, in order. -/
theorem diagnosticsCache_single_push_resolves_all_waiters_witness :
    (handlePublish
        (registerManyTrace ⟨[], []⟩ "file:///a.cpp" [0, 1]).state
        "file:///a.cpp"
        [⟨⟨⟨0, 0⟩, ⟨0, 5⟩⟩, some 1, "unused variable"⟩]).resolutions =
      [0, 1].map (fun x => (x, [⟨⟨⟨0, 0⟩, ⟨0, 5⟩⟩, some 1, "unused variable"⟩])) :=
  (diagnosticsCache_single_push_resolves_all_waiters ⟨[], []⟩ "file:///a.cpp"
    0 [1] [⟨⟨⟨0, 0⟩, ⟨0, 5⟩⟩, some 1, "unused variable"⟩] rfl rfl).2.2.1

/-- C3: a getDiagnostics call that finds no cached entry for the URI after
the optional force-refresh eviction suspends as a waiter; if no push arrives
within the bounded wait, the caller receives the empty sequence — the race
never surfaces an error of any kind — and the timeout cleanup discards the
waiter list for that URI. -/
theorem diagnosticsCache_timeout_returns_empty_and_discards_waiters
    (s : DiagnosticsCache) (u : String) (fr : Bool) (w : Nat)
    (hc : getEntry (if fr then delEntry s.cache u else s.cache) u = none) :
    (getDiagnosticsStep s u fr w).outcome = GetOutcome.registered w ∧
    diagnosticsWaitTimeoutMs = 5000 ∧
    waitForDiagnosticsResult RaceResult.timedOut = Except.ok [] ∧
    (∀ r, ∃ dres, waitForDiagnosticsResult r = Except.ok dres) ∧
    getEntry
      (onTimeoutCleanup (getDiagnosticsStep s u fr w).state u).pendingWaits
      u = none := by
  refine ⟨?_, rfl, rfl, fun r => ?_, ?_⟩
  · simp [getDiagnosticsStep, hc]
  · cases r with
    | resolved d => exact ⟨d, rfl⟩
    | timedOut => exact ⟨[], rfl⟩
  · simp only [onTimeoutCleanup]
    exact getEntry_delEntry_self _ _

/-- Witness for C3: a fresh cache with no entry for the URI; the call
suspends and the timed-out race yields the empty sequence. -/
theorem diagnosticsCache_timeout_returns_empty_and_discards_waiters_witness :
    (getDiagnosticsStep ⟨[], []⟩ "file:///b.cpp" false 0).outcome =
        GetOutcome.registered 0 ∧
      diagnosticsWaitTimeoutMs = 5000 ∧
      waitForDiagnosticsResult RaceResult.timedOut = Except.ok [] ∧
      (∀ r, ∃ dres, waitForDiagnosticsResult r = Except.ok dres) ∧
      getEntry
        (onTimeoutCleanup (getDiagnosticsStep ⟨[], []⟩ "file:///b.cpp" false 0).state
          "file:///b.cpp").pendingWaits "file:///b.cpp" = none :=
  diagnosticsCache_timeout_returns_empty_and_discards_waiters
    ⟨[], []⟩ "file:///b.cpp" false 0 rfl

/-- C5: a force-refresh getDiagnostics call first evicts the cached entry
for the URI, so even when a value was cached the call never returns it: the
caller suspends as a waiter and the next push for the URI resolves it with
exactly the fresh pushed payload. -/
theorem diagnosticsCache_forceRefresh_waits_for_fresh_push
    (s : DiagnosticsCache) (u : String) (w : Nat)
    (d0 dF : List Diagnostic)
    (_hcached : getEntry s.cache u = some d0)
    (hp : getEntry s.pendingWaits u = none) :
    (getDiagnosticsStep s u true w).outcome = GetOutcome.registered w ∧
    (handlePublish (getDiagnosticsStep s u true w).state u dF).resolutions =
      [(w, dF)] := by
  have hdel : getEntry (delEntry s.cache u) u = none := getEntry_delEntry_self _ _
  have hstep : getDiagnosticsStep s u true w =
      ⟨⟨delEntry s.cache u, setEntry s.pendingWaits u [w]⟩,
        GetOutcome.registered w, []⟩ := by
    simp [getDiagnosticsStep, hdel, hp]
  rw [hstep]
  refine ⟨rfl, ?_⟩
  simp only [handlePublish, getEntry_setEntry_self]
  rfl

/-- Witness for C5: a cache holding one stale diagnostic for the URI; the
force-refresh caller suspends and the fresh push resolves it with the new
payload only. -/
theorem diagnosticsCache_forceRefresh_waits_for_fresh_push_witness :
    (getDiagnosticsStep
        ⟨[("file:///c.cpp", [⟨⟨⟨1, 0⟩, ⟨1, 4⟩⟩, some 2, "old warning"⟩])], []⟩
        "file:///c.cpp" true 3).outcome = GetOutcome.registered 3 ∧
      (handlePublish
        (getDiagnosticsStep
          ⟨[("file:///c.cpp", [⟨⟨⟨1, 0⟩, ⟨1, 4⟩⟩, some 2, "old warning"⟩])], []⟩
          "file:///c.cpp" true 3).state
        "file:///c.cpp" [⟨⟨⟨2, 0⟩, ⟨2, 6⟩⟩, some 1, "fresh error"⟩]).resolutions =
      [(3, [⟨⟨⟨2, 0⟩, ⟨2, 6⟩⟩, some 1, "fresh error"⟩])] :=
  diagnosticsCache_forceRefresh_waits_for_fresh_push
    ⟨[("file:///c.cpp", [⟨⟨⟨1, 0⟩, ⟨1, 4⟩⟩, some 2, "old warning"⟩])], []⟩
    "file:///c.cpp" 3 [⟨⟨⟨1, 0⟩, ⟨1, 4⟩⟩, some 2, "old warning"⟩]
    [⟨⟨⟨2, 0⟩, ⟨2, 6⟩⟩, some 1, "fresh error"⟩] rfl rfl

/- ## Claims about the open-document tracker -/

/-- Removing an untracked path leaves the document list unchanged. -/
theorem removeDoc_eq_self_of_not_found (l : List OpenDoc) (p : String)
    (h : findDoc l p = none) : removeDoc l p = l := by
  induction l with
  | nil => rfl
  | cons d t ih =>
      by_cases hd : d.path == p
      · simp [findDoc, hd] at h
      · simp only [findDoc, hd] at h
        simp [removeDoc, hd, ih h]

/-- Looking a path up in a concatenation whose first part does not contain
it defers to the second part. -/
theorem findDoc_append_of_not_found (l₁ l₂ : List OpenDoc) (p : String)
    (h : findDoc l₁ p = none) : findDoc (l₁ ++ l₂) p = findDoc l₂ p := by
  induction l₁ with
  | nil => rfl
  | cons d t ih =>
      by_cases hd : d.path == p
      · simp [findDoc, hd] at h
      · simp only [findDoc, hd] at h
        simp [findDoc, hd, ih h]

/-- Removal distributes over concatenation. -/
theorem removeDoc_append (l₁ l₂ : List OpenDoc) (p : String) :
    removeDoc (l₁ ++ l₂) p = removeDoc l₁ p ++ removeDoc l₂ p := by
  induction l₁ with
  | nil => rfl
  | cons d t ih =>
      by_cases hd : d.path == p <;> simp [removeDoc, hd, ih]

/-- Removal never grows the document list. -/
theorem removeDoc_length_le (l : List OpenDoc) (p : String) :
    (removeDoc l p).length ≤ l.length := by
  induction l with
  | nil => exact Nat.le_refl 0
  | cons e t ih =>
      by_cases hd : e.path == p
      · simp only [removeDoc, hd, if_true, List.length_cons]
        exact Nat.le_succ_of_le ih
      · simp only [removeDoc, hd, if_false, List.length_cons]
        exact Nat.succ_le_succ ih

/-- Removing a tracked path strictly shrinks the document list. -/
theorem removeDoc_length_lt (l : List OpenDoc) (p : String) (d : OpenDoc)
    (h : findDoc l p = some d) : (removeDoc l p).length < l.length := by
  induction l with
  | nil => simp [findDoc] at h
  | cons e t ih =>
      by_cases hd : e.path == p
      · simp only [removeDoc, hd, if_true, List.length_cons]
        exact Nat.lt_succ_of_le (removeDoc_length_le t p)
      · simp only [findDoc, hd, if_false] at h
        simp only [removeDoc, hd, if_false, List.length_cons]
        exact Nat.succ_lt_succ (ih h)

/-- The removed path is no longer found after removal. -/
theorem findDoc_removeDoc_self (l : List OpenDoc) (p : String) :
    findDoc (removeDoc l p) p = none := by
  induction l with
  | nil => rfl
  | cons d t ih =>
      by_cases hd : d.path == p
      · simpa [removeDoc, hd] using ih
      · simp [removeDoc, findDoc, hd, ih]

/-- A path not found in a list is not found in its tail either. -/
theorem findDoc_cons_none (d : OpenDoc) (t : List OpenDoc) (p : String)
    (h : findDoc (d :: t) p = none) : findDoc t p = none := by
  by_cases hd : d.path == p <;> simp [findDoc, hd] at h
  exact h

/-- One ensureOpen call on an existing file preserves the capacity bound and
the configured capacity. -/
theorem ensureFileOpen_length_le (t : FileTracker) (p : String)
    (r : FileTracker × String × List TrackerEvent)
    (hcap : 0 < t.maxOpenFiles) (hlen : t.docs.length ≤ t.maxOpenFiles)
    (h : ensureFileOpen t p true = some r) :
    r.1.docs.length ≤ t.maxOpenFiles ∧ r.1.maxOpenFiles = t.maxOpenFiles := by
  simp only [ensureFileOpen, if_true] at h
  cases hfind : findDoc t.docs p with
  | some d =>
      rw [hfind] at h
      simp only [Option.some.injEq] at h
      subst h
      constructor
      · simp only [List.length_append, List.length_cons, List.length_nil]
        have := removeDoc_length_lt t.docs p d hfind
        omega
      · rfl
  | none =>
      rw [hfind] at h
      by_cases hle : t.maxOpenFiles ≤ t.docs.length
      · simp only [hle, if_true] at h
        cases hdocs : t.docs with
        | nil =>
            rw [hdocs] at hle
            simp only [List.length_nil, Nat.le_zero] at hle
            omega
        | cons lru rest =>
            rw [hdocs] at h
            simp only [Option.some.injEq] at h
            subst h
            constructor
            · simp only [List.length_append, List.length_cons, List.length_nil]
              rw [hdocs] at hlen
              simp only [List.length_cons] at hlen
              omega
            · rfl
      · simp only [hle, if_false] at h
        simp only [Option.some.injEq] at h
        subst h
        constructor
        · simp only [List.length_append, List.length_cons, List.length_nil]
          omega
        · rfl

/-- Every sequence of ensureOpen calls keeps the tracker within its
configured capacity. -/
theorem runEnsures_length_le (cap : Nat) (hcap : 0 < cap) :
    ∀ (paths : List String) (t : FileTracker),
      t.maxOpenFiles = cap → t.docs.length ≤ cap →
      (runEnsures t paths).docs.length ≤ cap := by
  intro paths
  induction paths with
  | nil => intro t hm hl; simpa [runEnsures] using hl
  | cons p rest ih =>
      intro t hm hl
      simp only [runEnsures]
      cases h : ensureFileOpen t p true with
      | none => exact ih t hm hl
      | some r =>
          have hr := ensureFileOpen_length_le t p r (hm ▸ hcap) (hm ▸ hl) h
          exact ih r.1 (hr.2.trans hm) (hm ▸ hr.1)

/-- An already-tracked path sitting at the most-recently-used position is
returned as-is by ensureOpen: same state, cached URI, no protocol traffic. -/
theorem ensureFileOpen_tracked_mru (X : List OpenDoc) (cap : Nat) (p : String)
    (hX : findDoc X p = none) :
    ensureFileOpen ⟨X ++ [⟨p, pathToUri p⟩], cap⟩ p true =
      some (⟨X ++ [⟨p, pathToUri p⟩], cap⟩, pathToUri p, []) := by
  have hfind : findDoc (X ++ [⟨p, pathToUri p⟩]) p = some ⟨p, pathToUri p⟩ := by
    rw [findDoc_append_of_not_found X _ p hX]
    simp [findDoc]
  have hrem : removeDoc (X ++ [⟨p, pathToUri p⟩]) p = X := by
    rw [removeDoc_append, removeDoc_eq_self_of_not_found X p hX]
    simp [removeDoc]
  simp [ensureFileOpen, hfind, hrem]

/-- C4: over any sequence of ensureOpen calls from an empty tracker the
number of tracked documents never exceeds the configured capacity, and an
ensureOpen of an untracked path on a full tracker evicts exactly the
least-recently-touched document — sending its close notification and
invoking the eviction callback with its URI, before the didOpen of the new
document — and then tracks the new document as most-recently-used. -/
theorem fileTracker_capacity_bound_and_lru_eviction (cap : Nat)
    (hcap : 0 < cap) :
    (∀ paths : List String, (runEnsures ⟨[], cap⟩ paths).docs.length ≤ cap) ∧
    (∀ (t : FileTracker) (p : String) (lru : OpenDoc) (rest : List OpenDoc),
       t.maxOpenFiles = cap → t.docs = lru :: rest → cap ≤ t.docs.length →
       findDoc t.docs p = none →
       ensureFileOpen t p true = some
         (⟨rest ++ [⟨p, pathToUri p⟩], cap⟩, pathToUri p,
          [TrackerEvent.didClose lru.uri, TrackerEvent.closedCallback lru.uri,
           TrackerEvent.didOpen (pathToUri p)])) := by
  constructor
  · intro paths
    exact runEnsures_length_le cap hcap paths ⟨[], cap⟩ rfl (Nat.zero_le cap)
  · intro t p lru rest hm hdocs hfull hfind
    obtain ⟨docs, m⟩ := t
    simp only at hm hdocs hfull hfind
    subst hm hdocs
    have hfull2 : m ≤ rest.length + 1 := by simpa using hfull
    simp [ensureFileOpen, hfind, hfull2]

/-- Witness for C4: capacity 1; two opens stay within the bound, and opening
a second path on a full tracker evicts the first with its close notification
and callback before the new didOpen. -/
theorem fileTracker_capacity_bound_and_lru_eviction_witness :
    (runEnsures ⟨[], 1⟩ ["/a.cpp", "/b.cpp"]).docs.length ≤ 1 ∧
    ensureFileOpen ⟨[⟨"/a.cpp", pathToUri "/a.cpp"⟩], 1⟩ "/b.cpp" true = some
      (⟨[⟨"/b.cpp", pathToUri "/b.cpp"⟩], 1⟩, pathToUri "/b.cpp",
       [TrackerEvent.didClose (pathToUri "/a.cpp"),
        TrackerEvent.closedCallback (pathToUri "/a.cpp"),
        TrackerEvent.didOpen (pathToUri "/b.cpp")]) :=
  ⟨(fileTracker_capacity_bound_and_lru_eviction 1 (by decide)).1
      ["/a.cpp", "/b.cpp"],
   (fileTracker_capacity_bound_and_lru_eviction 1 (by decide)).2
      ⟨[⟨"/a.cpp", pathToUri "/a.cpp"⟩], 1⟩ "/b.cpp"
      ⟨"/a.cpp", pathToUri "/a.cpp"⟩ [] rfl rfl (by decide) (by decide)⟩

/-- C8: two successive ensureOpen calls on an existing, initially untracked
path issue exactly one didOpen notification in total: the first call opens
the document (one didOpen among its events) and returns the derived URI; the
second call returns the same URI and the same tracker state with no protocol
traffic, the path staying at the most-recently-used position. -/
theorem fileTracker_ensureOpen_idempotent_single_didOpen
    (t : FileTracker) (p : String) (hnew : findDoc t.docs p = none) :
    ∃ t1 ev1, ensureFileOpen t p true = some (t1, pathToUri p, ev1) ∧
      ev1.countP isDidOpen = 1 ∧
      ensureFileOpen t1 p true = some (t1, pathToUri p, []) := by
  by_cases hle : t.maxOpenFiles ≤ t.docs.length
  · cases hdocs : t.docs with
    | nil =>
        refine ⟨⟨[⟨p, pathToUri p⟩], t.maxOpenFiles⟩,
          [TrackerEvent.didOpen (pathToUri p)], ?_, ?_, ?_⟩
        · rw [hdocs] at hnew hle; simp [ensureFileOpen, hnew, hle, hdocs]
        · simp [List.countP_cons, isDidOpen]
        · exact ensureFileOpen_tracked_mru [] t.maxOpenFiles p rfl
    | cons lru rest =>
        have hrest : findDoc rest p = none := by
          rw [hdocs] at hnew; exact findDoc_cons_none lru rest p hnew
        refine ⟨⟨rest ++ [⟨p, pathToUri p⟩], t.maxOpenFiles⟩,
          [TrackerEvent.didClose lru.uri, TrackerEvent.closedCallback lru.uri,
           TrackerEvent.didOpen (pathToUri p)], ?_, ?_, ?_⟩
        · rw [hdocs] at hnew hle
          have hle2 : t.maxOpenFiles ≤ rest.length + 1 := by simpa using hle
          simp [ensureFileOpen, hnew, hle2, hdocs]
        · simp [List.countP_cons, isDidOpen]
        · exact ensureFileOpen_tracked_mru rest t.maxOpenFiles p hrest
  · refine ⟨⟨t.docs ++ [⟨p, pathToUri p⟩], t.maxOpenFiles⟩,
      [TrackerEvent.didOpen (pathToUri p)], ?_, ?_, ?_⟩
    · simp [ensureFileOpen, hnew, hle]
    · simp [List.countP_cons, isDidOpen]
    · exact ensureFileOpen_tracked_mru t.docs t.maxOpenFiles p hnew

/-- Witness for C8: opening /a.cpp twice on an empty tracker of capacity
100. -/
theorem fileTracker_ensureOpen_idempotent_single_didOpen_witness :
    ∃ t1 ev1, ensureFileOpen ⟨[], 100⟩ "/a.cpp" true =
        some (t1, pathToUri "/a.cpp", ev1) ∧
      ev1.countP isDidOpen = 1 ∧
      ensureFileOpen t1 "/a.cpp" true = some (t1, pathToUri "/a.cpp", []) :=
  fileTracker_ensureOpen_idempotent_single_didOpen ⟨[], 100⟩ "/a.cpp" rfl

/-- C9: closeFile on an untracked path is a no-op — no notification, no
state change, no callback; on a tracked path it sends the close
notification, invokes the callback exactly once with the tracked URI, and
removes the entry. -/
theorem fileTracker_closeFile_untracked_noop_tracked_closes_once
    (t : FileTracker) (p : String) :
    (findDoc t.docs p = none → closeFile t p = (t, [])) ∧
    (∀ d, findDoc t.docs p = some d →
       closeFile t p =
         (⟨removeDoc t.docs p, t.maxOpenFiles⟩,
          [TrackerEvent.didClose d.uri, TrackerEvent.closedCallback d.uri]) ∧
       findDoc (removeDoc t.docs p) p = none) := by
  constructor
  · intro h
    simp [closeFile, h]
  · intro d h
    refine ⟨by simp [closeFile, h], findDoc_removeDoc_self t.docs p⟩

/-- Witness for C9: closing an untracked path leaves the tracker alone;
closing the single tracked path emits one didClose and one callback and
empties the tracker. -/
theorem fileTracker_closeFile_untracked_noop_tracked_closes_once_witness :
    closeFile ⟨[], 100⟩ "/a.cpp" = (⟨[], 100⟩, []) ∧
    closeFile ⟨[⟨"/a.cpp", pathToUri "/a.cpp"⟩], 100⟩ "/a.cpp" =
      (⟨[], 100⟩,
       [TrackerEvent.didClose (pathToUri "/a.cpp"),
        TrackerEvent.closedCallback (pathToUri "/a.cpp")]) :=
  ⟨(fileTracker_closeFile_untracked_noop_tracked_closes_once ⟨[], 100⟩
      "/a.cpp").1 rfl,
   ((fileTracker_closeFile_untracked_noop_tracked_closes_once
      ⟨[⟨"/a.cpp", pathToUri "/a.cpp"⟩], 100⟩ "/a.cpp").2
      ⟨"/a.cpp", pathToUri "/a.cpp"⟩ (by decide)).1⟩

end ClangdMCP
